import Mathlib

/-!
Verification of the task-board application (boards, lists, cards with
drag-and-drop reordering and browser-local persistence).

The development shallowly embeds the program state and operations:

* `Board`, `TList`, `Card` mirror the entity interfaces from the
  source types module (the source names its list entity `List`, which
  collides with the Lean builtin, so it is called `TList` here).
  Timestamp fields are modeled as natural numbers (epoch milliseconds),
  which is what a JS `Date` denotes.
* JS objects used as string-keyed maps (`Record<string, T>`) are
  modeled as association lists with the helpers `recGet`, `recSet`,
  `recDel`; `recSet` replaces the existing entry in place (JS keeps key
  insertion order) and appends a fresh key at the end.
* `Storage` models the three localStorage keys together with the
  availability flag probed by `StorageService.isStorageAvailable`.
  Each key holds a `StoredVal`: absent, unparsable text, or a parsed
  value. All exception points of `getData`/`setData` are wrapped in
  try/catch in the source, so the embedded functions are total;
  `setData` additionally returns whether the failure branch (a console
  warning and no write) was taken.
* Store actions from the state-management module are functions
  `AppState → Storage → ... → AppState × Storage`; the fresh-id and
  current-time effects (`generateId`, `new Date()`) are passed as
  explicit parameters. `await` points run sequentially, matching the
  single-threaded executions the claims are about.
-/

/-- Lookup in a JS object used as a map: first entry with the key. -/
def recGet {α : Type} : List (String × α) → String → Option α
  | [], _ => none
  | p :: rest, k => if p.1 = k then some p.2 else recGet rest k

/-- Key assignment on a JS object: replace the entry in place if the
key is present (JS preserves key insertion order), otherwise append the
new key at the end. -/
def recSet {α : Type} : List (String × α) → String → α → List (String × α)
  | [], k, v => [(k, v)]
  | p :: rest, k, v => if p.1 = k then (k, v) :: rest else p :: recSet rest k v

/-- The JS `delete obj[key]` operator: drop the entry with the key. -/
def recDel {α : Type} : List (String × α) → String → List (String × α)
  | [], _ => []
  | p :: rest, k => if p.1 = k then recDel rest k else p :: recDel rest k

/-- Board entity (interface `Board` in the source types module). -/
structure Board where
  id : String
  title : String
  description : String
  createdAt : Nat
  updatedAt : Nat
  color : String
deriving DecidableEq, Repr

/-- List entity (interface `List` in the source types module; renamed
here because `List` is taken by the Lean builtin). It has no
`updatedAt` field. -/
structure TList where
  id : String
  title : String
  boardId : String
  position : Nat
  createdAt : Nat
deriving DecidableEq, Repr

/-- Card entity (interface `Card` in the source types module). -/
structure Card where
  id : String
  title : String
  description : String
  listId : String
  position : Nat
  createdAt : Nat
  updatedAt : Nat
deriving DecidableEq, Repr

/-- State of one localStorage key: absent, text that fails JSON.parse,
or a successfully parsed value. -/
inductive StoredVal (α : Type) where
  | missing : StoredVal α
  | corrupt : StoredVal α
  | ok : α → StoredVal α
deriving DecidableEq, Repr

/-- The durable store: the availability flag probed by
`isStorageAvailable` plus the three collections.
`trello_boards` holds an array, `trello_lists` and `trello_cards` hold
objects keyed by boardId resp. listId. -/
structure Storage where
  available : Bool
  boards : StoredVal (List Board)
  lists : StoredVal (List (String × List TList))
  cards : StoredVal (List (String × List Card))
deriving DecidableEq, Repr

/-- StorageService.getData: returns the default when storage is
unavailable, the key is absent, or parsing throws (the catch returns
the default); otherwise the parsed value. Total because every throwing
operation in the source is inside try/catch. -/
def getData {α : Type} (available : Bool) (item : StoredVal α) (defaultValue : α) : α :=
  if !available then defaultValue
  else
    match item with
    | .missing => defaultValue
    | .corrupt => defaultValue
    | .ok v => v

/-- StorageService.setData: when storage is unavailable the write is
skipped and a console warning is emitted (second component `true`);
otherwise the key is overwritten. A quota error thrown by the
underlying write is caught the same way and also leaves the stored
value unchanged. -/
def setData {α : Type} (available : Bool) (item : StoredVal α) (data : α) :
    StoredVal α × Bool :=
  if !available then (item, true)
  else (.ok data, false)

/-- StorageService.loadBoards. -/
def StorageService.loadBoards (st : Storage) : List Board :=
  getData st.available st.boards []

/-- StorageService.loadLists (default is the empty object). -/
def StorageService.loadLists (st : Storage) : List (String × List TList) :=
  getData st.available st.lists []

/-- StorageService.loadCards (default is the empty object). -/
def StorageService.loadCards (st : Storage) : List (String × List Card) :=
  getData st.available st.cards []

/-- Write to the boards key through setData. -/
def StorageService.setBoards (st : Storage) (v : List Board) : Storage :=
  { st with boards := (setData st.available st.boards v).1 }

/-- Write to the lists key through setData. -/
def StorageService.setLists (st : Storage) (v : List (String × List TList)) : Storage :=
  { st with lists := (setData st.available st.lists v).1 }

/-- Write to the cards key through setData. -/
def StorageService.setCards (st : Storage) (v : List (String × List Card)) : Storage :=
  { st with cards := (setData st.available st.cards v).1 }

/-- The findIndex-then-replace-or-push sequence shared by saveBoard,
saveList and saveCard: replace the first entry whose id matches, else
push at the tail. -/
def upsertById {α : Type} (xs : List α) (idOf : α → String) (x : α) : List α :=
  match xs.findIdx? (fun y => idOf y == idOf x) with
  | some i => xs.set i x
  | none => xs ++ [x]

/-- StorageService.saveBoard. -/
def StorageService.saveBoard (st : Storage) (board : Board) : Storage :=
  StorageService.setBoards st (upsertById (StorageService.loadBoards st) Board.id board)

/-- StorageService.saveList: upsert into the sequence stored under the
boardId key of the lists object. -/
def StorageService.saveList (st : Storage) (list : TList) : Storage :=
  let listsData := StorageService.loadLists st
  let boardLists := (recGet listsData list.boardId).getD []
  let boardLists2 := upsertById boardLists TList.id list
  StorageService.setLists st (recSet listsData list.boardId boardLists2)

/-- StorageService.saveCard: upsert into the sequence stored under the
listId key of the cards object. -/
def StorageService.saveCard (st : Storage) (card : Card) : Storage :=
  let cardsData := StorageService.loadCards st
  let listCards := (recGet cardsData card.listId).getD []
  let listCards2 := upsertById listCards Card.id card
  StorageService.setCards st (recSet cardsData card.listId listCards2)

/-- StorageService.deleteCard: filter the card out of its list; if the
remainder is empty the key is deleted, otherwise reassigned. -/
def StorageService.deleteCard (st : Storage) (cardId listId : String) : Storage :=
  let cardsData := StorageService.loadCards st
  let listCards := (recGet cardsData listId).getD []
  let filteredCards := listCards.filter (fun c => c.id != cardId)
  let cardsData2 :=
    if filteredCards.length = 0 then recDel cardsData listId
    else recSet cardsData listId filteredCards
  StorageService.setCards st cardsData2

/-- StorageService.deleteBoardData: the source deletes the boardId key
from the lists object first and only then reads `listsData[boardId]`
to find which card keys to delete, so `boardLists` is always empty and
no card key is ever deleted. The embedding reproduces that order. -/
def StorageService.deleteBoardData (st : Storage) (boardId : String) : Storage :=
  let listsData := StorageService.loadLists st
  let cardsData := StorageService.loadCards st
  let listsData2 := recDel listsData boardId
  let st2 := StorageService.setLists st listsData2
  let boardLists := (recGet listsData2 boardId).getD []
  let cardsData2 := boardLists.foldl (fun cd list => recDel cd list.id) cardsData
  StorageService.setCards st2 cardsData2

/-- StorageService.deleteBoard: filter the board out of the boards
array, then delete the associated lists and cards via deleteBoardData. -/
def StorageService.deleteBoard (st : Storage) (boardId : String) : Storage :=
  let boards := StorageService.loadBoards st
  let filteredBoards := boards.filter (fun b => b.id != boardId)
  let st2 := StorageService.setBoards st filteredBoards
  StorageService.deleteBoardData st2 boardId

/-- StorageService.updateListPositions: whole-collection replacement of
one board entry of the lists object. -/
def StorageService.updateListPositions (st : Storage) (boardId : String)
    (lists : List TList) : Storage :=
  StorageService.setLists st (recSet (StorageService.loadLists st) boardId lists)

/-- StorageService.updateCardPositions: whole-collection replacement of
one list entry of the cards object. -/
def StorageService.updateCardPositions (st : Storage) (listId : String)
    (cards : List Card) : Storage :=
  StorageService.setCards st (recSet (StorageService.loadCards st) listId cards)

/-- The loading/error slice of the store state (`LoadingState`). -/
structure LoadingState where
  boards : Bool
  saving : Bool
  error : Option String
deriving DecidableEq, Repr

/-- The in-memory store state (`AppState`), restricted to the slices
the domain operations touch; the purely visual `dragState` and `modal`
slices are never read or written by the operations embedded here. -/
structure AppState where
  boards : List Board
  lists : List (String × List TList)
  cards : List (String × List Card)
  currentBoard : Option String
  loading : LoadingState
deriving DecidableEq, Repr

/-- Payload of createList (`CreateListData`). -/
structure CreateListData where
  title : String
  boardId : String
deriving DecidableEq, Repr

/-- Payload of createCard (`CreateCardData`). -/
structure CreateCardData where
  title : String
  description : String
  listId : String
deriving DecidableEq, Repr

/-- Modelled from the spec: the Ordering Engine function
`reorder(sequence, fromIndex, toIndex)` from the utilities module
src/utils, whose file is not present under src (only its callers in
the store are). Per the spec it removes the element at `fromIndex` and
reinserts it at `toIndex` clamped to `[0, length-1]`, preserving all
other relative orderings; an out-of-range `fromIndex` leaves the
sequence unchanged. -/
def reorder {α : Type} (l : List α) (fromIndex toIndex : Nat) : List α :=
  match l[fromIndex]? with
  | none => l
  | some moved => (l.eraseIdx fromIndex).insertIdx (min toIndex (l.length - 1)) moved

/-- The `.map((card, index) => ({ ...card, position: index }))`
renumbering step used by the store, unfolded as a recursion on the
sequence with the running index made explicit. -/
def renumberCardsFrom (i : Nat) : List Card → List Card
  | [] => []
  | c :: cs => { c with position := i } :: renumberCardsFrom (i + 1) cs

/-- Renumbering of a card sequence: position := index. -/
def renumberCards (cs : List Card) : List Card :=
  renumberCardsFrom 0 cs

/-- Renumbering with explicit running index for list entities. -/
def renumberListsFrom (i : Nat) : List TList → List TList
  | [] => []
  | l :: ls => { l with position := i } :: renumberListsFrom (i + 1) ls

/-- Renumbering of a list sequence: position := index. -/
def renumberLists (ls : List TList) : List TList :=
  renumberListsFrom 0 ls

/-- Store action loadBoards: mark loading and clear the error, read
through the adapter, then replace the boards collection. The catch
branch of the source is unreachable because the adapter read never
rejects (every throw inside getData is caught there), so the success
branch is the only behavior. -/
def Store.loadBoards (st : AppState) (sto : Storage) : AppState × Storage :=
  let st1 := { st with loading := { st.loading with boards := true, error := none } }
  let boards := StorageService.loadBoards sto
  ({ st1 with boards := boards, loading := { st1.loading with boards := false } }, sto)

/-- Store action deleteBoard: persist the delete, then drop the board
from memory, clear its lists key (the source assigns undefined to it,
observably removing the entry), and reset currentBoard if it pointed
at the deleted board. The in-memory cards object is not touched. -/
def Store.deleteBoard (st : AppState) (sto : Storage) (id : String) : AppState × Storage :=
  let st1 := { st with loading := { st.loading with saving := true, error := none } }
  let sto2 := StorageService.deleteBoard sto id
  let st2 := { st1 with
    boards := st1.boards.filter (fun b => b.id != id),
    lists := recDel st1.lists id,
    currentBoard := if st1.currentBoard = some id then none else st1.currentBoard,
    loading := { st1.loading with saving := false } }
  (st2, sto2)

/-- Store action createList: build the list with position = current
length of the board entry, save through the adapter, then append in
memory. The catch branch is unreachable: saveList never rejects. -/
def Store.createList (st : AppState) (sto : Storage) (data : CreateListData)
    (newId : String) (now : Nat) : AppState × Storage :=
  let st1 := { st with loading := { st.loading with saving := true, error := none } }
  let boardLists := (recGet st1.lists data.boardId).getD []
  let list : TList := { id := newId, title := data.title, boardId := data.boardId,
                        position := boardLists.length, createdAt := now }
  let sto2 := StorageService.saveList sto list
  let st2 := { st1 with
    lists := recSet st1.lists data.boardId ((recGet st1.lists data.boardId).getD [] ++ [list]),
    loading := { st1.loading with saving := false } }
  (st2, sto2)

/-- Store action createCard: build the card with position = current
length of the list entry, save through the adapter, then append in
memory. The catch branch is unreachable: saveCard never rejects, so
in particular a swallowed storage-write failure still reaches the
in-memory append. -/
def Store.createCard (st : AppState) (sto : Storage) (data : CreateCardData)
    (newId : String) (now : Nat) : AppState × Storage :=
  let st1 := { st with loading := { st.loading with saving := true, error := none } }
  let listCards := (recGet st1.cards data.listId).getD []
  let card : Card := { id := newId, title := data.title, description := data.description,
                       listId := data.listId, position := listCards.length,
                       createdAt := now, updatedAt := now }
  let sto2 := StorageService.saveCard sto card
  let st2 := { st1 with
    cards := recSet st1.cards data.listId ((recGet st1.cards data.listId).getD [] ++ [card]),
    loading := { st1.loading with saving := false } }
  (st2, sto2)

/-- Store action deleteCard: persist the delete, then filter the card
out of the list entry in memory. No renumbering happens on either
side. -/
def Store.deleteCard (st : AppState) (sto : Storage) (id listId : String) :
    AppState × Storage :=
  let st1 := { st with loading := { st.loading with saving := true, error := none } }
  let sto2 := StorageService.deleteCard sto id listId
  let st2 := { st1 with
    cards := recSet st1.cards listId
      (((recGet st1.cards listId).getD []).filter (fun c => c.id != id)),
    loading := { st1.loading with saving := false } }
  (st2, sto2)

/-- Store action moveCard. The source does not compare sourceListId
with destListId: it always removes from the source snapshot, splices
into the destination snapshot (the splice start index is clamped to
the length, as JS splice does), renumbers both, persists both entries
(here sequentially, source first; the two writes are not atomic), and
commits both keys, the destination assignment last. A missing card id
throws, which the catch converts into the error slot. -/
def Store.moveCard (st : AppState) (sto : Storage) (cardId sourceListId destListId : String)
    (destIndex : Nat) (now : Nat) : AppState × Storage :=
  let sourceCards := (recGet st.cards sourceListId).getD []
  let destCards := (recGet st.cards destListId).getD []
  match sourceCards.find? (fun c => c.id == cardId) with
  | none =>
      ({ st with loading := { st.loading with error := some "Card not found" } }, sto)
  | some cardToMove =>
      let newSourceCards := sourceCards.filter (fun c => c.id != cardId)
      let updatedCard := { cardToMove with listId := destListId, updatedAt := now }
      let newDestCards := destCards.insertIdx (min destIndex destCards.length) updatedCard
      let updatedSourceCards := renumberCards newSourceCards
      let updatedDestCards := renumberCards newDestCards
      let sto2 := StorageService.updateCardPositions sto sourceListId updatedSourceCards
      let sto3 := StorageService.updateCardPositions sto2 destListId updatedDestCards
      let st2 := { st with
        cards := recSet (recSet st.cards sourceListId updatedSourceCards)
                   destListId updatedDestCards }
      (st2, sto3)

/-- Store action reorderCards: Ordering Engine reorder, renumber,
persist the whole entry, commit to memory. -/
def Store.reorderCards (st : AppState) (sto : Storage) (listId : String)
    (startIndex endIndex : Nat) : AppState × Storage :=
  let cards := (recGet st.cards listId).getD []
  let updatedCards := renumberCards (reorder cards startIndex endIndex)
  let sto2 := StorageService.updateCardPositions sto listId updatedCards
  ({ st with cards := recSet st.cards listId updatedCards }, sto2)

/-- Store action reorderLists: Ordering Engine reorder, renumber,
persist the whole entry, commit to memory. -/
def Store.reorderLists (st : AppState) (sto : Storage) (boardId : String)
    (startIndex endIndex : Nat) : AppState × Storage :=
  let lists := (recGet st.lists boardId).getD []
  let updatedLists := renumberLists (reorder lists startIndex endIndex)
  let sto2 := StorageService.updateListPositions sto boardId updatedLists
  ({ st with lists := recSet st.lists boardId updatedLists }, sto2)

/-- Drag metadata attached to a droppable or sortable element
(`data: { type, listId }` in the components): whether the element is a
card (type card) or a list (type list), and the listId it carries. -/
structure DragData where
  isCard : Bool
  listId : String
deriving DecidableEq, Repr

/-- Which store action the card branch of handleDragEnd dispatches. -/
inductive CardDragAction where
  | reorderInList (listId : String) (oldIndex newIndex : Int)
  | moveAcross (cardId sourceListId destListId : String) (destIndex : Int)
  | noAction
deriving DecidableEq, Repr

/-- The JS findIndex result: index of the first matching card, or -1. -/
def findIndexById (cs : List Card) (id : String) : Int :=
  match cs.findIdx? (fun c => c.id == id) with
  | some i => Int.ofNat i
  | none => -1

/-- The `over.data.current?.listId || over.id` computation of
handleDragEnd: the listId carried by the drop data when present,
otherwise the over id itself. -/
def overListOf (overData : Option DragData) (overId : String) : String :=
  match overData with
  | some d => d.listId
  | none => overId

/-- Card branch of handleDragEnd in the Board component (the
Interaction Controller): with a drop target present, equal active and
over ids return early; otherwise the over listId is taken from the
drop data when present, else the over id itself, and the drag is
dispatched to reorderCards when the two list ids coincide and to
moveCard only when they differ. -/
def handleDragEndCard (cards : List (String × List Card)) (activeId activeListId overId : String)
    (overData : Option DragData) : CardDragAction :=
  if activeId = overId then .noAction
  else
    let overListId := overListOf overData overId
    if activeListId = overListId then
      let listCards := (recGet cards activeListId).getD []
      let oldIndex := findIndexById listCards activeId
      let newIndex := findIndexById listCards overId
      if oldIndex ≠ newIndex then .reorderInList activeListId oldIndex newIndex
      else .noAction
    else
      let destCards := (recGet cards overListId).getD []
      let destIndex :=
        match overData with
        | some d => if d.isCard then findIndexById destCards overId
                    else Int.ofNat destCards.length
        | none => Int.ofNat destCards.length
      .moveAcross activeId activeListId overListId destIndex

/-- An ISO-8601 date string as produced by serializing a Date. The
textual form is in bijection with the millisecond instant it denotes
(serializing and then constructing a Date from the string is the
identity on the instant), so the model carries the instant. -/
structure IsoString where
  ms : Nat
deriving DecidableEq, Repr

/-- A date-valued field as observed after JSON.parse and optional
revival: either a structured Date value or a raw un-revived string. -/
inductive TimeField where
  | date : Nat → TimeField
  | text : IsoString → TimeField
deriving DecidableEq, Repr

/-- An entity item as it appears inside a JSON.parse result: the
date-carrying fields, plus the id standing in for the remaining plain
fields (which serialization round-trips unchanged). -/
structure RawItem where
  id : String
  createdAt : TimeField
  updatedAt : Option TimeField
deriving DecidableEq, Repr

/-- The two JSON.parse result shapes getData distinguishes with
Array.isArray: the boards key parses to an array of items, the lists
and cards keys parse to an object keyed by parent id. -/
inductive ParsedValue where
  | array : List RawItem → ParsedValue
  | record : List (String × List RawItem) → ParsedValue
deriving DecidableEq, Repr

/-- The `new Date(...)` revival applied to one date field. -/
def reviveTime : TimeField → TimeField
  | .date t => .date t
  | .text s => .date s.ms

/-- Per-item revival in getData: createdAt is always revived; a
present updatedAt is revived and an absent one stays undefined. -/
def reviveItem (it : RawItem) : RawItem :=
  { it with
    createdAt := reviveTime it.createdAt,
    updatedAt :=
      match it.updatedAt with
      | some t => some (reviveTime t)
      | none => none }

/-- The revival step of getData: only a value that Array.isArray
accepts has its items mapped through reviveItem; an object is returned
exactly as parsed. -/
def getDataRevive : ParsedValue → ParsedValue
  | .array items => .array (items.map reviveItem)
  | .record entries => .record entries

/-- JSON.stringify followed by JSON.parse on one board: date fields
become their ISO strings; updatedAt is always present on a board. -/
def stringifyParseBoard (b : Board) : RawItem :=
  { id := b.id, createdAt := .text ⟨b.createdAt⟩, updatedAt := some (.text ⟨b.updatedAt⟩) }

/-- JSON.stringify followed by JSON.parse on one card. -/
def stringifyParseCard (c : Card) : RawItem :=
  { id := c.id, createdAt := .text ⟨c.createdAt⟩, updatedAt := some (.text ⟨c.updatedAt⟩) }

/-- JSON.stringify followed by JSON.parse on one list entity, which
has no updatedAt field, so the parsed item lacks it. -/
def stringifyParseList (l : TList) : RawItem :=
  { id := l.id, createdAt := .text ⟨l.createdAt⟩, updatedAt := none }

/-- What loadBoards yields for a stored boards array once the stored
text is parsed: the revival dispatch applied to an array shape. -/
def loadBoardsParsed (bs : List Board) : ParsedValue :=
  getDataRevive (.array (bs.map stringifyParseBoard))

/-- What loadCards yields for a stored cards object once the stored
text is parsed: the revival dispatch applied to a record shape. -/
def loadCardsParsed (entries : List (String × List Card)) : ParsedValue :=
  getDataRevive (.record (entries.map (fun p => (p.1, p.2.map stringifyParseCard))))

/-- What loadLists yields for a stored lists object once the stored
text is parsed. -/
def loadListsParsed (entries : List (String × List TList)) : ParsedValue :=
  getDataRevive (.record (entries.map (fun p => (p.1, p.2.map stringifyParseList))))

/-- Dense positions for a card sequence: the multiset of position
values is exactly 0..m-1. -/
def posDense (cs : List Card) : Prop :=
  (cs.map Card.position).Perm (List.range cs.length)

/-- Dense positions for a list-entity sequence. -/
def listPosDense (ls : List TList) : Prop :=
  (ls.map TList.position).Perm (List.range ls.length)

instance (cs : List Card) : Decidable (posDense cs) := by
  unfold posDense; infer_instance

instance (ls : List TList) : Decidable (listPosDense ls) := by
  unfold listPosDense; infer_instance

/-- A loading state with no activity and no pending error. -/
def loading0 : LoadingState := { boards := false, saving := false, error := none }

/-- Card fixture builder for the concrete evaluations. -/
def mkCard (id listId : String) (pos : Nat) : Card :=
  { id := id, title := id, description := "", listId := listId,
    position := pos, createdAt := 0, updatedAt := 0 }

/-- Board fixture. -/
def exBoard : Board :=
  { id := "B1", title := "Backlog", description := "", createdAt := 5,
    updatedAt := 7, color := "blue" }

/-- List fixture living on the fixture board. -/
def exList : TList :=
  { id := "L1", title := "To Do", boardId := "B1", position := 0, createdAt := 3 }

/-- Card fixture living on the fixture list. -/
def exCard1 : Card := mkCard "c1" "L1" 0

/-- In-memory state with one board, one list, one card. -/
def stCascade : AppState :=
  { boards := [exBoard], lists := [("B1", [exList])], cards := [("L1", [exCard1])],
    currentBoard := some "B1", loading := loading0 }

/-- Durable state matching `stCascade`. -/
def stoCascade : Storage :=
  { available := true, boards := .ok [exBoard], lists := .ok [("B1", [exList])],
    cards := .ok [("L1", [exCard1])] }

/-- First card of the two-card fixture list. -/
def cardA : Card := mkCard "a" "L" 0

/-- Second card of the two-card fixture list. -/
def cardB : Card := mkCard "b" "L" 1

/-- In-memory state with a single list holding two cards. -/
def stTwoCards : AppState :=
  { boards := [], lists := [], cards := [("L", [cardA, cardB])],
    currentBoard := none, loading := loading0 }

/-- Durable state matching `stTwoCards`. -/
def stoTwoCards : Storage :=
  { available := true, boards := .ok [], lists := .ok [],
    cards := .ok [("L", [cardA, cardB])] }

/-- A durable store whose availability probe fails. -/
def stoUnavailable : Storage :=
  { available := false, boards := .missing, lists := .missing, cards := .missing }

/-- An empty in-memory state. -/
def stEmpty : AppState :=
  { boards := [], lists := [], cards := [], currentBoard := none, loading := loading0 }

/-- A durable store whose boards key holds unparsable text. -/
def stoCorrupt : Storage :=
  { available := true, boards := .corrupt, lists := .missing, cards := .missing }

/-- An in-memory state that already holds a loaded boards collection. -/
def stLoaded : AppState :=
  { boards := [exBoard], lists := [], cards := [], currentBoard := none, loading := loading0 }

/-- Payload fixture for createCard targeting the two-card list. -/
def exCreateCard : CreateCardData := { title := "t", description := "", listId := "L" }

/-- Card X of the scenario-B fixture. -/
def cardX : Card := mkCard "x" "L1" 0

/-- Card Y of the scenario-B fixture. -/
def cardY : Card := mkCard "y" "L1" 1

/-- Card Z of the scenario-B fixture. -/
def cardZ : Card := mkCard "z" "L2" 0

/-- In-memory state of scenario B: L1 holds X and Y, L2 holds Z. -/
def stScenarioB : AppState :=
  { boards := [], lists := [], cards := [("L1", [cardX, cardY]), ("L2", [cardZ])],
    currentBoard := none, loading := loading0 }

theorem recGet_recSet_self {α : Type} (r : List (String × α)) (k : String) (v : α) :
    recGet (recSet r k v) k = some v := by
  induction r with
  | nil => simp [recGet, recSet]
  | cons p rest ih =>
      by_cases h : p.1 = k
      · simp [recSet, recGet, h]
      · simp [recSet, recGet, h, ih]

theorem recGet_recSet_ne {α : Type} (r : List (String × α)) (k k' : String) (v : α)
    (h : k' ≠ k) : recGet (recSet r k v) k' = recGet r k' := by
  induction r with
  | nil => simp [recGet, recSet, Ne.symm h]
  | cons p rest ih =>
      by_cases hp : p.1 = k
      · simp [recSet, recGet, hp, Ne.symm h]
      · by_cases hp' : p.1 = k'
        · simp [recSet, recGet, hp, hp', h]
        · simp [recSet, recGet, hp, hp', ih]

theorem perm_insertIdx {α : Type} (a : α) :
    ∀ (n : Nat) (l : List α), n ≤ l.length → (l.insertIdx n a).Perm (a :: l)
  | 0, l, _ => by simp
  | n + 1, [], h => by simp at h
  | n + 1, b :: l, h => by
      rw [List.insertIdx_succ_cons]
      exact ((perm_insertIdx a n l (Nat.le_of_succ_le_succ h)).cons b).trans
        (List.Perm.swap a b l)

theorem perm_cons_eraseIdx {α : Type} :
    ∀ (l : List α) (i : Nat) (x : α), l[i]? = some x → l.Perm (x :: l.eraseIdx i)
  | [], _, _, h => by simp at h
  | a :: l, 0, x, h => by
      simp only [List.getElem?_cons_zero, Option.some.injEq] at h
      subst h
      simp [List.eraseIdx]
  | a :: l, i + 1, x, h => by
      simp only [List.getElem?_cons_succ] at h
      simp only [List.eraseIdx_cons_succ]
      exact ((perm_cons_eraseIdx l i x h).cons a).trans (List.Perm.swap x a _)

theorem insertIdx_eraseIdx_self {α : Type} :
    ∀ (l : List α) (i : Nat) (x : α), l[i]? = some x → (l.eraseIdx i).insertIdx i x = l
  | [], _, _, h => by simp at h
  | a :: l, 0, x, h => by
      simp only [List.getElem?_cons_zero, Option.some.injEq] at h
      subst h
      rfl
  | a :: l, i + 1, x, h => by
      simp only [List.getElem?_cons_succ] at h
      simp only [List.eraseIdx_cons_succ, List.insertIdx_succ_cons]
      exact congrArg (a :: ·) (insertIdx_eraseIdx_self l i x h)

theorem length_renumberCardsFrom (i : Nat) (cs : List Card) :
    (renumberCardsFrom i cs).length = cs.length := by
  induction cs generalizing i with
  | nil => rfl
  | cons c cs ih => simp [renumberCardsFrom, ih]

theorem map_position_renumberCardsFrom (i : Nat) (cs : List Card) :
    (renumberCardsFrom i cs).map Card.position = List.range' i cs.length := by
  induction cs generalizing i with
  | nil => rfl
  | cons c cs ih => simp [renumberCardsFrom, List.range'_succ, ih]

theorem posDense_renumberCards (cs : List Card) : posDense (renumberCards cs) := by
  unfold posDense renumberCards
  rw [map_position_renumberCardsFrom, length_renumberCardsFrom, List.range_eq_range']

theorem length_renumberListsFrom (i : Nat) (ls : List TList) :
    (renumberListsFrom i ls).length = ls.length := by
  induction ls generalizing i with
  | nil => rfl
  | cons l ls ih => simp [renumberListsFrom, ih]

theorem map_position_renumberListsFrom (i : Nat) (ls : List TList) :
    (renumberListsFrom i ls).map TList.position = List.range' i ls.length := by
  induction ls generalizing i with
  | nil => rfl
  | cons l ls ih => simp [renumberListsFrom, List.range'_succ, ih]

theorem listPosDense_renumberLists (ls : List TList) : listPosDense (renumberLists ls) := by
  unfold listPosDense renumberLists
  rw [map_position_renumberListsFrom, length_renumberListsFrom, List.range_eq_range']

theorem countP_id_renumberCardsFrom (i : Nat) (cs : List Card) (p : String → Bool) :
    (renumberCardsFrom i cs).countP (fun c => p c.id) = cs.countP (fun c => p c.id) := by
  induction cs generalizing i with
  | nil => rfl
  | cons c cs ih => simp [renumberCardsFrom, List.countP_cons, ih]

theorem length_filter_not_add_countP {α : Type} (p : α → Bool) (l : List α) :
    (l.filter (fun a => !(p a))).length + l.countP p = l.length := by
  induction l with
  | nil => rfl
  | cons a l ih =>
      by_cases h : p a <;> simp [List.filter_cons, List.countP_cons, h] <;> omega

theorem posDense_append (cs : List Card) (c : Card) (h : posDense cs)
    (hc : c.position = cs.length) : posDense (cs ++ [c]) := by
  unfold posDense at h ⊢
  rw [List.map_append, List.length_append, List.map_singleton, List.length_singleton,
    List.range_succ]
  exact h.append (by rw [hc])

theorem listPosDense_append (ls : List TList) (l : TList) (h : listPosDense ls)
    (hl : l.position = ls.length) : listPosDense (ls ++ [l]) := by
  unfold listPosDense at h ⊢
  rw [List.map_append, List.length_append, List.map_singleton, List.length_singleton,
    List.range_succ]
  exact h.append (by rw [hl])

/-- C1: deleting a board must leave no list and no card of that board
in memory or in durable storage. On the fixture board B1 with one list
L1 holding one card, deleteBoard empties the boards array and the
lists entries on both sides, but the cards stored under the key L1
survive both in the in-memory state (the action never touches the
cards slice) and in durable storage (deleteBoardData removes the
boardId key from the lists object before reading it to learn which
card keys to delete, so it deletes none). -/
theorem C1_deleteBoard_cascade_leaves_cards :
    (Store.deleteBoard stCascade stoCascade "B1").1.boards = [] ∧
    recGet (Store.deleteBoard stCascade stoCascade "B1").1.lists "B1" = none ∧
    (Store.deleteBoard stCascade stoCascade "B1").2.lists = StoredVal.ok [] ∧
    recGet (Store.deleteBoard stCascade stoCascade "B1").1.cards "L1" = some [exCard1] ∧
    (Store.deleteBoard stCascade stoCascade "B1").2.cards = StoredVal.ok [("L1", [exCard1])] := by
  decide

/-- C2 counterexample: after deleteCard removes the card at position 0
of a two-card list, the surviving card keeps position 1, so the set of
positions in that list is not 0..m-1 as the claim requires of every
operation. -/
theorem C2_counterexample_deleteCard_leaves_gap :
    ¬ posDense ((recGet (Store.deleteCard stTwoCards stoTwoCards "a" "L").1.cards "L").getD []) := by
  decide

/-- C3 counterexample: with the backing store unavailable, the durable
write inside createCard fails, yet the in-memory cards collection for
the list gains the new card and the error slot stays empty, against
the persist-first behavior the claim requires. -/
theorem C3_counterexample_createCard_mutates_despite_failure :
    (Store.createCard stEmpty stoUnavailable exCreateCard "n1" 4).1.cards ≠ stEmpty.cards ∧
    (Store.createCard stEmpty stoUnavailable exCreateCard "n1" 4).1.loading.error = none ∧
    (Store.createCard stEmpty stoUnavailable exCreateCard "n1" 4).2 = stoUnavailable := by
  decide

/-- C7: saving and loading must round-trip timestamps as structured
date values for every entity kind. The boards key parses to an array,
so its items pass through the Array.isArray revival branch and the
dates come back structured (with an absent update timestamp staying
absent); the lists and cards keys parse to objects, the revival branch
is skipped, and their createdAt and updatedAt fields come back as raw
ISO strings instead of date values. -/
theorem C7_dates_revive_only_for_boards :
    loadBoardsParsed [exBoard]
      = .array [{ id := "B1", createdAt := .date 5, updatedAt := some (.date 7) }] ∧
    loadCardsParsed [("L1", [exCard1])]
      = .record [("L1", [{ id := "c1", createdAt := .text ⟨0⟩, updatedAt := some (.text ⟨0⟩) }])] ∧
    loadListsParsed [("B1", [exList])]
      = .record [("B1", [{ id := "L1", createdAt := .text ⟨3⟩, updatedAt := none }])] ∧
    reviveItem { id := "n", createdAt := .text ⟨2⟩, updatedAt := none }
      = { id := "n", createdAt := .date 2, updatedAt := none } := by
  decide

/-- C8 counterexample: with the stored boards text unparsable, the
adapter silently returns the default empty array, so loadBoards
replaces the previously loaded boards collection with the empty one
and sets no error, against the stale-but-available behavior the claim
requires. -/
theorem C8_counterexample_corrupt_read_clears_boards :
    (Store.loadBoards stLoaded stoCorrupt).1.boards = [] ∧
    stLoaded.boards ≠ [] ∧
    (Store.loadBoards stLoaded stoCorrupt).1.loading.error = none := by
  decide

/-- C5 counterexample: moveCard called with sourceListId equal to
destListId does not route to the reorder path: the card is removed
from one snapshot but spliced into another snapshot that still holds
it, and the destination commit wins, so the resulting list holds the
card twice and differs from the corresponding reorderCards result. -/
theorem C5_counterexample_moveCard_same_list_duplicates :
    ((recGet (Store.moveCard stTwoCards stoTwoCards "a" "L" "L" 1 8).1.cards "L").getD
        []).countP (fun c => c.id == "a") = 2 ∧
    (recGet (Store.reorderCards stTwoCards stoTwoCards "L" 0 1).1.cards "L").getD []
      ≠ (recGet (Store.moveCard stTwoCards stoTwoCards "a" "L" "L" 1 8).1.cards "L").getD [] := by
  decide

/-- C6: while the backing store is unavailable no call throws past the
adapter (the embedded operations are the total catch-wrapped bodies),
every read returns the supplied default, and every write is a no-op
that reports failure (the second component of setData records the
warning branch); consequently the per-key loads return their defaults
and a save leaves the durable state untouched. -/
theorem C6_unavailable_storage_degrades :
    ∀ (α : Type) (item : StoredVal α) (d v : α) (sto : Storage) (b : Board),
      sto.available = false →
      getData sto.available item d = d ∧
      setData sto.available item v = (item, true) ∧
      StorageService.loadBoards sto = [] ∧
      StorageService.loadLists sto = [] ∧
      StorageService.loadCards sto = [] ∧
      StorageService.saveBoard sto b = sto := by
  intro α item d v sto b h
  unfold StorageService.saveBoard StorageService.setBoards StorageService.loadBoards
    StorageService.loadLists StorageService.loadCards getData setData
  simp [h]
  rw [← h]

/-- Witness for C6 at a concrete unavailable store. -/
theorem C6_witness :
    getData stoUnavailable.available (StoredVal.ok 3) 5 = 5 ∧
    setData stoUnavailable.available (StoredVal.ok 3) 7 = (StoredVal.ok 3, true) ∧
    StorageService.loadBoards stoUnavailable = [] ∧
    StorageService.loadLists stoUnavailable = [] ∧
    StorageService.loadCards stoUnavailable = [] ∧
    StorageService.saveBoard stoUnavailable exBoard = stoUnavailable :=
  C6_unavailable_storage_degrades Nat (StoredVal.ok 3) 5 7 stoUnavailable exBoard rfl

/-- C8 amended: a boards read whose stored text cannot be parsed is
absorbed inside the adapter, which returns the default empty array
without rejecting; loadBoards therefore replaces the in-memory boards
collection with the empty default and leaves the error slot empty
(the error-preserving catch branch would run only if the adapter
rejected, which it never does). -/
theorem C8_amended_corrupt_read_replaces_with_default :
    ∀ (st : AppState) (sto : Storage), sto.boards = StoredVal.corrupt →
      (Store.loadBoards st sto).1.boards = [] ∧
      (Store.loadBoards st sto).1.loading.error = none ∧
      (Store.loadBoards st sto).2 = sto := by
  intro st sto h
  unfold Store.loadBoards StorageService.loadBoards getData
  rw [h]
  by_cases hav : sto.available <;> simp [hav]

/-- Witness for the amended C8 at a concrete corrupt store. -/
theorem C8_amended_witness :
    (Store.loadBoards stLoaded stoCorrupt).1.boards = [] ∧
    (Store.loadBoards stLoaded stoCorrupt).1.loading.error = none ∧
    (Store.loadBoards stLoaded stoCorrupt).2 = stoCorrupt :=
  C8_amended_corrupt_read_replaces_with_default stLoaded stoCorrupt rfl

/-- C3 amended: when the backing store is unavailable the write inside
createCard is silently skipped by the adapter; the action still
appends the freshly built card to the in-memory collection of its
list, the error slot ends empty, and the durable state is unchanged;
the no-mutation-plus-error branch would require the adapter to reject,
which it never does. -/
theorem C3_amended_createCard_swallows_write_failure :
    ∀ (st : AppState) (sto : Storage) (data : CreateCardData) (newId : String) (now : Nat),
      sto.available = false →
      recGet (Store.createCard st sto data newId now).1.cards data.listId
        = some ((recGet st.cards data.listId).getD [] ++
            [{ id := newId, title := data.title, description := data.description,
               listId := data.listId,
               position := ((recGet st.cards data.listId).getD []).length,
               createdAt := now, updatedAt := now }]) ∧
      (Store.createCard st sto data newId now).1.loading.error = none ∧
      (Store.createCard st sto data newId now).2 = sto := by
  intro st sto data newId now h
  unfold Store.createCard StorageService.saveCard StorageService.setCards
    StorageService.loadCards getData setData
  simp [h, recGet_recSet_self]
  rw [← h]

/-- Witness for the amended C3 at a concrete unavailable store. -/
theorem C3_amended_witness :
    recGet (Store.createCard stEmpty stoUnavailable exCreateCard "n1" 4).1.cards
        exCreateCard.listId
      = some ((recGet stEmpty.cards exCreateCard.listId).getD [] ++
          [{ id := "n1", title := exCreateCard.title,
             description := exCreateCard.description, listId := exCreateCard.listId,
             position := ((recGet stEmpty.cards exCreateCard.listId).getD []).length,
             createdAt := 4, updatedAt := 4 }]) ∧
    (Store.createCard stEmpty stoUnavailable exCreateCard "n1" 4).1.loading.error = none ∧
    (Store.createCard stEmpty stoUnavailable exCreateCard "n1" 4).2 = stoUnavailable :=
  C3_amended_createCard_swallows_write_failure stEmpty stoUnavailable exCreateCard "n1" 4 rfl

/-- C10: saveBoard, saveList and saveCard are upserts keyed by id.
The shared findIndex-then-set-or-push step replaces the entity in
place at its existing index, keeping every other index unchanged and
the length fixed, and appends at the tail when no entity carries the
id; on a working store, saving routes that step to the boards array
resp. to exactly the parent-keyed entry of the lists or cards object,
leaving every other key of the object untouched. -/
theorem C10_save_operations_are_upserts :
    (∀ (α : Type) (xs : List α) (idOf : α → String) (x : α),
      ((∀ y ∈ xs, idOf y ≠ idOf x) → upsertById xs idOf x = xs ++ [x]) ∧
      (∀ i, xs.findIdx? (fun y => idOf y == idOf x) = some i →
        upsertById xs idOf x = xs.set i x ∧
        (xs.set i x).length = xs.length ∧
        (xs.set i x)[i]? = some x ∧
        ∀ k, k ≠ i → (xs.set i x)[k]? = xs[k]?)) ∧
    (∀ (sto : Storage) (b : Board), sto.available = true →
      StorageService.loadBoards (StorageService.saveBoard sto b)
        = upsertById (StorageService.loadBoards sto) Board.id b) ∧
    (∀ (sto : Storage) (l : TList), sto.available = true →
      recGet (StorageService.loadLists (StorageService.saveList sto l)) l.boardId
        = some (upsertById ((recGet (StorageService.loadLists sto) l.boardId).getD [])
            TList.id l) ∧
      ∀ k, k ≠ l.boardId →
        recGet (StorageService.loadLists (StorageService.saveList sto l)) k
          = recGet (StorageService.loadLists sto) k) ∧
    (∀ (sto : Storage) (c : Card), sto.available = true →
      recGet (StorageService.loadCards (StorageService.saveCard sto c)) c.listId
        = some (upsertById ((recGet (StorageService.loadCards sto) c.listId).getD [])
            Card.id c) ∧
      ∀ k, k ≠ c.listId →
        recGet (StorageService.loadCards (StorageService.saveCard sto c)) k
          = recGet (StorageService.loadCards sto) k) := by
  refine ⟨?_, ?_, ?_, ?_⟩
  · intro α xs idOf x
    constructor
    · intro h
      have hnone : xs.findIdx? (fun y => idOf y == idOf x) = none :=
        List.findIdx?_eq_none_iff.mpr fun y hy => beq_eq_false_iff_ne.mpr (h y hy)
      unfold upsertById
      rw [hnone]
    · intro i h
      obtain ⟨hlt, -, -⟩ := List.findIdx?_eq_some_iff_getElem.mp h
      refine ⟨?_, List.length_set xs i x, List.getElem?_set_self hlt, ?_⟩
      · unfold upsertById
        rw [h]
      · intro k hk
        exact List.getElem?_set_ne (Ne.symm hk)
  · intro sto b hav
    unfold StorageService.saveBoard StorageService.setBoards StorageService.loadBoards
      getData setData
    simp [hav]
  · intro sto l hav
    unfold StorageService.saveList StorageService.setLists StorageService.loadLists
      getData setData
    simp only [hav, Bool.not_true, Bool.false_eq_true, if_false, if_true, ite_false, ite_true]
    exact ⟨recGet_recSet_self _ _ _, fun k hk => recGet_recSet_ne _ _ _ _ hk⟩
  · intro sto c hav
    unfold StorageService.saveCard StorageService.setCards StorageService.loadCards
      getData setData
    simp only [hav, Bool.not_true, Bool.false_eq_true, if_false, if_true, ite_false, ite_true]
    exact ⟨recGet_recSet_self _ _ _, fun k hk => recGet_recSet_ne _ _ _ _ hk⟩

/-- Witness for C10: saving a board absent from the stored array
appends it at the tail of the loaded collection. -/
theorem C10_witness :
    StorageService.loadBoards (StorageService.saveBoard stoTwoCards exBoard)
      = upsertById (StorageService.loadBoards stoTwoCards) Board.id exBoard ∧
    upsertById (StorageService.loadBoards stoTwoCards) Board.id exBoard
      = StorageService.loadBoards stoTwoCards ++ [exBoard] :=
  ⟨C10_save_operations_are_upserts.2.1 stoTwoCards exBoard rfl,
   (C10_save_operations_are_upserts.1 Board (StorageService.loadBoards stoTwoCards)
      Board.id exBoard).1 (by decide) ⟩

/-- C2 amended: the reorder operations and moveCard renumber the
collections they write, so the affected card lists (and the board
entry for list reordering) end with positions exactly 0..m-1, and
createCard resp. createList preserve density because the new entity
takes position = current length; the delete operations however only
filter and never renumber, so a delete can leave a gap (see the
counterexample), and an update may write an arbitrary position. -/
theorem C2_amended_positions_dense :
    (∀ (st : AppState) (sto : Storage) (listId : String) (i j : Nat),
      posDense ((recGet (Store.reorderCards st sto listId i j).1.cards listId).getD [])) ∧
    (∀ (st : AppState) (sto : Storage) (boardId : String) (i j : Nat),
      listPosDense ((recGet (Store.reorderLists st sto boardId i j).1.lists boardId).getD [])) ∧
    (∀ (st : AppState) (sto : Storage) (cardId src dest : String) (idx now : Nat) (c : Card),
      ((recGet st.cards src).getD []).find? (fun c => c.id == cardId) = some c →
      posDense ((recGet (Store.moveCard st sto cardId src dest idx now).1.cards src).getD []) ∧
      posDense ((recGet (Store.moveCard st sto cardId src dest idx now).1.cards dest).getD [])) ∧
    (∀ (st : AppState) (sto : Storage) (data : CreateCardData) (newId : String) (now : Nat),
      posDense ((recGet st.cards data.listId).getD []) →
      posDense ((recGet (Store.createCard st sto data newId now).1.cards data.listId).getD [])) ∧
    (∀ (st : AppState) (sto : Storage) (data : CreateListData) (newId : String) (now : Nat),
      listPosDense ((recGet st.lists data.boardId).getD []) →
      listPosDense ((recGet (Store.createList st sto data newId now).1.lists data.boardId).getD [])) := by
  refine ⟨?_, ?_, ?_, ?_, ?_⟩
  · intro st sto listId i j
    simp only [Store.reorderCards, recGet_recSet_self, Option.getD_some]
    exact posDense_renumberCards _
  · intro st sto boardId i j
    simp only [Store.reorderLists, recGet_recSet_self, Option.getD_some]
    exact listPosDense_renumberLists _
  · intro st sto cardId src dest idx now c hfind
    by_cases hsd : src = dest
    · subst hsd
      simp only [Store.moveCard, hfind, recGet_recSet_self, Option.getD_some]
      exact ⟨posDense_renumberCards _, posDense_renumberCards _⟩
    · constructor
      · simp only [Store.moveCard, hfind, recGet_recSet_ne _ _ _ _ hsd,
          recGet_recSet_self, Option.getD_some]
        exact posDense_renumberCards _
      · simp only [Store.moveCard, hfind, recGet_recSet_self, Option.getD_some]
        exact posDense_renumberCards _
  · intro st sto data newId now h
    simp only [Store.createCard, recGet_recSet_self, Option.getD_some]
    exact posDense_append _ _ h rfl
  · intro st sto data newId now h
    simp only [Store.createList, recGet_recSet_self, Option.getD_some]
    exact listPosDense_append _ _ h rfl

/-- Witness for the amended C2: creating a card in the dense two-card
fixture list keeps the list dense, and a same-position reorder of that
list is dense as well. -/
theorem C2_amended_witness :
    posDense ((recGet (Store.createCard stTwoCards stoTwoCards exCreateCard "n2" 9).1.cards
        exCreateCard.listId).getD []) ∧
    posDense ((recGet (Store.reorderCards stTwoCards stoTwoCards "L" 0 1).1.cards "L").getD []) :=
  ⟨C2_amended_positions_dense.2.2.2.1 stTwoCards stoTwoCards exCreateCard "n2" 9 (by decide),
   C2_amended_positions_dense.1 stTwoCards stoTwoCards "L" 0 1⟩

theorem find?_isSome_of_countP_eq_one {α : Type} (p : α → Bool) (l : List α)
    (h : l.countP p = 1) : ∃ c, l.find? p = some c := by
  have hpos : 0 < l.countP p := by omega
  obtain ⟨a, ha, hpa⟩ := List.countP_pos_iff.mp hpos
  exact Option.isSome_iff_exists.mp (List.find?_isSome.mpr ⟨a, ha, hpa⟩)

theorem countP_beq_renumberCards (cs : List Card) (s : String) :
    (renumberCards cs).countP (fun c => c.id == s) = cs.countP (fun c => c.id == s) :=
  countP_id_renumberCardsFrom 0 cs (fun t => t == s)

/-- C4: on two distinct lists holding [X, Y] and [Z], moving X to the
front of the second list leaves the first list as [Y] at position 0
and the second as [X, Z] at positions 0 and 1 with the moved card
relabeled to the destination list (its updatedAt refreshed to the
operation time); and in general, for distinct source and destination,
a move of a card that occurs exactly once in the source conserves the
combined element count of the two lists. -/
theorem C4_moveCard_scenario_and_conservation :
    (∀ (st : AppState) (sto : Storage) (L1id L2id : String) (X Y Z : Card) (now : Nat),
      L1id ≠ L2id → X.id ≠ Y.id →
      recGet st.cards L1id = some [X, Y] →
      recGet st.cards L2id = some [Z] →
      recGet (Store.moveCard st sto X.id L1id L2id 0 now).1.cards L1id
          = some [{ Y with position := 0 }] ∧
      recGet (Store.moveCard st sto X.id L1id L2id 0 now).1.cards L2id
          = some [{ X with listId := L2id, updatedAt := now, position := 0 },
                  { Z with position := 1 }]) ∧
    (∀ (st : AppState) (sto : Storage) (cardId src dest : String) (idx now : Nat),
      src ≠ dest →
      ((recGet st.cards src).getD []).countP (fun c => c.id == cardId) = 1 →
      ((recGet (Store.moveCard st sto cardId src dest idx now).1.cards src).getD []).length
        + ((recGet (Store.moveCard st sto cardId src dest idx now).1.cards dest).getD
            []).length
        = ((recGet st.cards src).getD []).length
          + ((recGet st.cards dest).getD []).length) := by
  constructor
  · intro st sto L1id L2id X Y Z now hne hxy hs hd
    have hyx : (Y.id == X.id) = false := beq_eq_false_iff_ne.mpr (Ne.symm hxy)
    constructor
    · simp [Store.moveCard, hs, hd, hyx, recGet_recSet_ne _ _ _ _ hne,
        recGet_recSet_self, renumberCards, renumberCardsFrom, bne]
    · simp [Store.moveCard, hs, hd, hyx, recGet_recSet_self,
        renumberCards, renumberCardsFrom, bne]
  · intro st sto cardId src dest idx now hne hcount
    obtain ⟨c, hfind⟩ := find?_isSome_of_countP_eq_one _ _ hcount
    simp only [Store.moveCard, hfind]
    rw [recGet_recSet_ne _ _ _ _ hne, recGet_recSet_self, recGet_recSet_self]
    simp only [Option.getD_some]
    have hfil : (fun c : Card => c.id != cardId) = (fun c : Card => !(c.id == cardId)) := rfl
    have h1 := length_filter_not_add_countP (fun c : Card => c.id == cardId)
      ((recGet st.cards src).getD [])
    have h2 : 1 ≤ ((recGet st.cards src).getD []).length := by
      rw [← hcount]; exact List.countP_le_length _
    rw [renumberCards, length_renumberCardsFrom, renumberCards, length_renumberCardsFrom,
      hfil, List.length_insertIdx _ _ (Nat.min_le_right idx _)]
    omega

/-- Witness for C4 on the scenario-B fixture state. -/
theorem C4_witness :
    recGet (Store.moveCard stScenarioB stoTwoCards cardX.id "L1" "L2" 0 9).1.cards "L1"
        = some [{ cardY with position := 0 }] ∧
    recGet (Store.moveCard stScenarioB stoTwoCards cardX.id "L1" "L2" 0 9).1.cards "L2"
        = some [{ cardX with listId := "L2", updatedAt := 9, position := 0 },
                { cardZ with position := 1 }] ∧
    ((recGet (Store.moveCard stScenarioB stoTwoCards "x" "L1" "L2" 5 9).1.cards
        "L1").getD []).length
      + ((recGet (Store.moveCard stScenarioB stoTwoCards "x" "L1" "L2" 5 9).1.cards
          "L2").getD []).length
      = ((recGet stScenarioB.cards "L1").getD []).length
        + ((recGet stScenarioB.cards "L2").getD []).length :=
  ⟨(C4_moveCard_scenario_and_conservation.1 stScenarioB stoTwoCards "L1" "L2" cardX cardY
      cardZ 9 (by decide) (by decide) (by decide) (by decide)).1,
   (C4_moveCard_scenario_and_conservation.1 stScenarioB stoTwoCards "L1" "L2" cardX cardY
      cardZ 9 (by decide) (by decide) (by decide) (by decide)).2,
   C4_moveCard_scenario_and_conservation.2 stScenarioB stoTwoCards "x" "L1" "L2" 5 9
      (by decide) (by decide)⟩

/-- C5 amended: the source equality check lives only in the
Interaction Controller: the card branch of handleDragEnd never
dispatches moveCard when the computed over listId equals the active
listId, but the Domain Store itself performs no such check, and a
moveCard call whose source and destination coincide double-processes
the card: the committed list holds the card twice and has grown by
one element, so it cannot equal the corresponding reorder result. -/
theorem C5_amended_routing_only_in_controller :
    (∀ (cards : List (String × List Card)) (activeId activeListId overId : String)
        (overData : Option DragData) (cid s dd : String) (i : Int),
      overListOf overData overId = activeListId →
      handleDragEndCard cards activeId activeListId overId overData
        ≠ CardDragAction.moveAcross cid s dd i) ∧
    (∀ (st : AppState) (sto : Storage) (listId cardId : String) (idx now : Nat),
      ((recGet st.cards listId).getD []).countP (fun c => c.id == cardId) = 1 →
      ((recGet (Store.moveCard st sto cardId listId listId idx now).1.cards listId).getD
          []).countP (fun c => c.id == cardId) = 2 ∧
      ((recGet (Store.moveCard st sto cardId listId listId idx now).1.cards listId).getD
          []).length = ((recGet st.cards listId).getD []).length + 1) := by
  constructor
  · intro cards activeId activeListId overId overData cid s dd i h
    simp only [handleDragEndCard, h]
    by_cases h1 : activeId = overId
    · simp [h1]
    · simp only [h1, ite_false, if_neg]
      simp
      split <;> simp
  · intro st sto listId cardId idx now hcount
    obtain ⟨c, hfind⟩ := find?_isSome_of_countP_eq_one _ _ hcount
    have hpc := List.find?_some hfind
    simp only [Store.moveCard, hfind, recGet_recSet_self, Option.getD_some]
    constructor
    · rw [countP_beq_renumberCards]
      have hperm := perm_insertIdx ({ c with listId := listId, updatedAt := now })
        (min idx ((recGet st.cards listId).getD []).length)
        ((recGet st.cards listId).getD []) (Nat.min_le_right _ _)
      rw [hperm.countP_eq, List.countP_cons]
      simp [hpc, hcount]
    · rw [renumberCards, length_renumberCardsFrom,
        List.length_insertIdx _ _ (Nat.min_le_right idx _)]

/-- Witness for the amended C5: routing and the duplicate outcome on
the two-card fixture list. -/
theorem C5_amended_witness :
    handleDragEndCard stTwoCards.cards "a" "L" "b" (some { isCard := true, listId := "L" })
      ≠ CardDragAction.moveAcross "a" "L" "L" 0 ∧
    ((recGet (Store.moveCard stTwoCards stoTwoCards "a" "L" "L" 0 7).1.cards "L").getD
        []).countP (fun c => c.id == "a") = 2 ∧
    ((recGet (Store.moveCard stTwoCards stoTwoCards "a" "L" "L" 0 7).1.cards "L").getD
        []).length = ((recGet stTwoCards.cards "L").getD []).length + 1 :=
  ⟨C5_amended_routing_only_in_controller.1 stTwoCards.cards "a" "L" "b"
      (some { isCard := true, listId := "L" }) "a" "L" "L" 0 rfl,
   (C5_amended_routing_only_in_controller.2 stTwoCards stoTwoCards "L" "a" 0 7 (by decide)).1,
   (C5_amended_routing_only_in_controller.2 stTwoCards stoTwoCards "L" "a" 0 7 (by decide)).2⟩

/-- C9: over the spec-modelled Ordering Engine reorder, for valid
indices a same-index reorder is the identity, every reorder is a
permutation of its input, and a reorder followed by the reorder with
the indices swapped restores the original sequence. -/
theorem C9_reorder_properties :
    ∀ (α : Type) (l : List α) (i j : Nat), i < l.length → j < l.length →
      reorder l i i = l ∧
      (reorder l i j).Perm l ∧
      (i ≠ j → reorder (reorder l i j) j i = l) := by
  intro α l i j hi hj
  have hx : l[i]? = some l[i] := List.getElem?_eq_getElem hi
  have hmini : min i (l.length - 1) = i := Nat.min_eq_left (by omega)
  have hminj : min j (l.length - 1) = j := Nat.min_eq_left (by omega)
  have hel : (l.eraseIdx i).length = l.length - 1 := List.length_eraseIdx_of_lt hi
  refine ⟨?_, ?_, ?_⟩
  · simp only [reorder, hx, hmini]
    exact insertIdx_eraseIdx_self l i l[i] hx
  · simp only [reorder, hx, hminj]
    have hle : j ≤ (l.eraseIdx i).length := by omega
    exact (perm_insertIdx _ j _ hle).trans (perm_cons_eraseIdx l i _ hx).symm
  · intro _
    simp only [reorder, hx, hminj]
    have hjE : j ≤ (l.eraseIdx i).length := by omega
    have hlen2 : ((l.eraseIdx i).insertIdx j l[i]).length = l.length := by
      rw [List.length_insertIdx _ _ hjE, hel]
      omega
    have hj2 : j < ((l.eraseIdx i).insertIdx j l[i]).length := by omega
    have hget : ((l.eraseIdx i).insertIdx j l[i])[j]? = some l[i] := by
      rw [List.getElem?_eq_getElem hj2, List.getElem_insertIdx_self _ _ _ hjE]
    simp only [reorder, hget, hlen2, hmini, List.eraseIdx_insertIdx]
    exact insertIdx_eraseIdx_self l i _ hx

/-- Witness for C9 on a concrete three-element sequence. -/
theorem C9_witness :
    reorder [10, 20, 30] 0 0 = [10, 20, 30] ∧
    (reorder [10, 20, 30] 0 2).Perm [10, 20, 30] ∧
    (0 ≠ 2 → reorder (reorder [10, 20, 30] 0 2) 2 0 = [10, 20, 30]) :=
  C9_reorder_properties Nat [10, 20, 30] 0 2 (by decide) (by decide)
